import Mathlib

/-!
Verification of the Quake Sentinel impact-estimation and monitoring logic
(`q_sen.py`), shallowly embedded in Lean 4.

Real-valued quantities of the source (magnitudes, coordinates, distances)
are modelled over `ℝ`; the monitor-loop filter, which only compares JSON
numbers, is modelled over `ℚ` so that it stays executable.  Fallible I/O
(the seen-id persistence) is modelled by an explicit `Except` input.
-/

namespace QuakeSentinel

/-- Embeds `estimate_intensity(mag, dist_km)` from `q_sen.py`: a distance-banded
offset is applied to the magnitude, and the adjusted level is mapped through
seven inclusive lower-bound thresholds to a label. -/
noncomputable def estimate_intensity (mag dist_km : ℝ) : String :=
  let level : ℝ :=
    if dist_km < 30 then mag + 1.5
    else if dist_km < 100 then mag
    else if dist_km < 300 then mag - 1.5
    else mag - 2.5
  if level ≥ 7 then "VII (Severe)"
  else if level ≥ 6 then "VI (Very Strong)"
  else if level ≥ 5 then "V (Strong)"
  else if level ≥ 4 then "IV (Moderate)"
  else if level ≥ 3 then "III (Weak)"
  else if level ≥ 2 then "II (Slight)"
  else "I (Barely Felt)"

/-- The seven labels, in the order the source can return them. -/
def intensityLabels : List String :=
  ["VII (Severe)", "VI (Very Strong)", "V (Strong)", "IV (Moderate)",
   "III (Weak)", "II (Slight)", "I (Barely Felt)"]

/-- The distance-banded offset of the specification: +1.5 below 30 km, 0 up to
100 km, −1.5 up to 300 km, −2.5 from 300 km on. -/
noncomputable def bandOffset (d : ℝ) : ℝ :=
  if d < 30 then 1.5
  else if d < 100 then 0
  else if d < 300 then -1.5
  else -2.5

/-- The specification's threshold table: the adjusted level is mapped through
inclusive lower bounds 7, 6, 5, 4, 3, 2 to a label. -/
noncomputable def levelLabel (level : ℝ) : String :=
  if level ≥ 7 then "VII (Severe)"
  else if level ≥ 6 then "VI (Very Strong)"
  else if level ≥ 5 then "V (Strong)"
  else if level ≥ 4 then "IV (Moderate)"
  else if level ≥ 3 then "III (Weak)"
  else if level ≥ 2 then "II (Slight)"
  else "I (Barely Felt)"

/-- Position of a label in the seven-label order (I = 1 up to VII = 7). -/
def labelRank (s : String) : ℕ :=
  if s = "VII (Severe)" then 7
  else if s = "VI (Very Strong)" then 6
  else if s = "V (Strong)" then 5
  else if s = "IV (Moderate)" then 4
  else if s = "III (Weak)" then 3
  else if s = "II (Slight)" then 2
  else 1

/-- Rank of the label assigned to an adjusted level. -/
noncomputable def rankOfLevel (x : ℝ) : ℕ :=
  if x ≥ 7 then 7
  else if x ≥ 6 then 6
  else if x ≥ 5 then 5
  else if x ≥ 4 then 4
  else if x ≥ 3 then 3
  else if x ≥ 2 then 2
  else 1

lemma estimate_intensity_eq (mag d : ℝ) :
    estimate_intensity mag d = levelLabel (mag + bandOffset d) := by
  have L : (if d < 30 then mag + 1.5 else if d < 100 then mag
      else if d < 300 then mag - 1.5 else mag - 2.5) = mag + bandOffset d := by
    simp only [bandOffset]
    split_ifs <;> ring
  simp only [estimate_intensity, levelLabel, L]

lemma labelRank_levelLabel (x : ℝ) : labelRank (levelLabel x) = rankOfLevel x := by
  unfold levelLabel rankOfLevel
  split_ifs <;> simp [labelRank]

lemma rankOfLevel_mono {x y : ℝ} (h : x ≤ y) : rankOfLevel x ≤ rankOfLevel y := by
  unfold rankOfLevel
  rcases le_or_lt 7 y with c7 | c7
  · simp only [ge_iff_le, if_pos c7]
    split_ifs <;> norm_num
  · have n7 : ¬ y ≥ 7 := not_le.mpr c7
    have nx7 : ¬ x ≥ 7 := fun hx => n7 (le_trans hx h)
    rcases le_or_lt 6 y with c6 | c6
    · simp only [ge_iff_le, if_neg n7, if_neg nx7, if_pos c6]
      split_ifs <;> norm_num
    · have n6 : ¬ y ≥ 6 := not_le.mpr c6
      have nx6 : ¬ x ≥ 6 := fun hx => n6 (le_trans hx h)
      rcases le_or_lt 5 y with c5 | c5
      · simp only [ge_iff_le, if_neg n7, if_neg nx7, if_neg n6, if_neg nx6, if_pos c5]
        split_ifs <;> norm_num
      · have n5 : ¬ y ≥ 5 := not_le.mpr c5
        have nx5 : ¬ x ≥ 5 := fun hx => n5 (le_trans hx h)
        rcases le_or_lt 4 y with c4 | c4
        · simp only [ge_iff_le, if_neg n7, if_neg nx7, if_neg n6, if_neg nx6, if_neg n5,
            if_neg nx5, if_pos c4]
          split_ifs <;> norm_num
        · have n4 : ¬ y ≥ 4 := not_le.mpr c4
          have nx4 : ¬ x ≥ 4 := fun hx => n4 (le_trans hx h)
          rcases le_or_lt 3 y with c3 | c3
          · simp only [ge_iff_le, if_neg n7, if_neg nx7, if_neg n6, if_neg nx6, if_neg n5,
              if_neg nx5, if_neg n4, if_neg nx4, if_pos c3]
            split_ifs <;> norm_num
          · have n3 : ¬ y ≥ 3 := not_le.mpr c3
            have nx3 : ¬ x ≥ 3 := fun hx => n3 (le_trans hx h)
            rcases le_or_lt 2 y with c2 | c2
            · simp only [ge_iff_le, if_neg n7, if_neg nx7, if_neg n6, if_neg nx6, if_neg n5,
                if_neg nx5, if_neg n4, if_neg nx4, if_neg n3, if_neg nx3, if_pos c2]
              split_ifs <;> norm_num
            · have n2 : ¬ y ≥ 2 := not_le.mpr c2
              have nx2 : ¬ x ≥ 2 := fun hx => n2 (le_trans hx h)
              simp only [ge_iff_le, if_neg n7, if_neg nx7, if_neg n6, if_neg nx6, if_neg n5,
                if_neg nx5, if_neg n4, if_neg nx4, if_neg n3, if_neg nx3, if_neg n2, if_neg nx2]
              exact le_rfl

lemma bandOffset_antitone {d1 d2 : ℝ} (h : d1 ≤ d2) : bandOffset d2 ≤ bandOffset d1 := by
  unfold bandOffset
  rcases lt_or_le d1 30 with b1 | b1
  · rcases lt_or_le d2 30 with b2 | b2
    · rw [if_pos b1, if_pos b2]
    · rw [if_pos b1, if_neg (not_lt.mpr b2)]
      split_ifs <;> norm_num
  · have nb1 : ¬ d1 < 30 := not_lt.mpr b1
    have nb2 : ¬ d2 < 30 := not_lt.mpr (le_trans b1 h)
    rw [if_neg nb1, if_neg nb2]
    rcases lt_or_le d1 100 with c1 | c1
    · rw [if_pos c1]
      split_ifs <;> norm_num
    · have nc1 : ¬ d1 < 100 := not_lt.mpr c1
      have nc2 : ¬ d2 < 100 := not_lt.mpr (le_trans c1 h)
      rw [if_neg nc1, if_neg nc2]
      rcases lt_or_le d1 300 with e1 | e1
      · rw [if_pos e1]
        split_ifs <;> norm_num
      · rw [if_neg (not_lt.mpr e1), if_neg (not_lt.mpr (le_trans e1 h))]

lemma estimate_intensity_mem (mag d : ℝ) :
    estimate_intensity mag d ∈ intensityLabels := by
  rw [estimate_intensity_eq]
  unfold levelLabel intensityLabels
  split_ifs <;> simp

/-- C1: for every magnitude and non-negative distance, `estimate_intensity`
applies exactly the specified distance-banded offset to the magnitude, maps the
adjusted level through the seven inclusive lower-bound thresholds, and returns
one of the seven defined labels. -/
theorem c1_intensity_bands (mag d : ℝ) (h : 0 ≤ d) :
    estimate_intensity mag d = levelLabel (mag + bandOffset d) ∧
    estimate_intensity mag d ∈ intensityLabels :=
  ⟨estimate_intensity_eq mag d, estimate_intensity_mem mag d⟩

/-- Witness for C1 at magnitude 6.0 and distance 20 km. -/
theorem c1_intensity_bands_witness :
    (0:ℝ) ≤ 20 ∧
    (estimate_intensity 6 20 = levelLabel (6 + bandOffset 20) ∧
     estimate_intensity 6 20 ∈ intensityLabels) :=
  ⟨by norm_num, c1_intensity_bands 6 20 (by norm_num)⟩

/-- C4: for a fixed magnitude, `estimate_intensity` is monotonically
non-increasing in distance: a larger distance never gives a strictly higher
label in the seven-label order. -/
theorem c4_intensity_antitone (mag d1 d2 : ℝ) (h0 : 0 ≤ d1) (h12 : d1 ≤ d2) :
    labelRank (estimate_intensity mag d2) ≤ labelRank (estimate_intensity mag d1) := by
  rw [estimate_intensity_eq, estimate_intensity_eq, labelRank_levelLabel,
    labelRank_levelLabel]
  exact rankOfLevel_mono (by linarith [bandOffset_antitone h12])

/-- Witness for C4 at magnitude 6.0, distances 20 km and 150 km. -/
theorem c4_intensity_antitone_witness :
    ((0:ℝ) ≤ 20 ∧ (20:ℝ) ≤ 150) ∧
    labelRank (estimate_intensity 6 150) ≤ labelRank (estimate_intensity 6 20) :=
  ⟨⟨by norm_num, by norm_num⟩, c4_intensity_antitone 6 20 150 (by norm_num) (by norm_num)⟩

/-- Embeds C's `atan2(y, x)` (what Python's `math.atan2` calls): the angle of
the point `(x, y)`, with `atan2 0 0 = 0`. -/
noncomputable def atan2 (y x : ℝ) : ℝ :=
  if 0 < x then Real.arctan (y / x)
  else if x < 0 then
    (if 0 ≤ y then Real.arctan (y / x) + Real.pi else Real.arctan (y / x) - Real.pi)
  else if 0 < y then Real.pi / 2
  else if y < 0 then -(Real.pi / 2)
  else 0

/-- Embeds Python's `math.radians`: degrees to radians. -/
noncomputable def radians (x : ℝ) : ℝ := x * Real.pi / 180

/-- Embeds `distance_km(lat1, lon1, lat2, lon2)` from `q_sen.py`: haversine
great-circle distance on a sphere of radius 6371 km. -/
noncomputable def distance_km (lat1 lon1 lat2 lon2 : ℝ) : ℝ :=
  let R : ℝ := 6371.0
  let phi1 := radians lat1
  let phi2 := radians lat2
  let dphi := radians (lat2 - lat1)
  let dlambda := radians (lon2 - lon1)
  let a := (Real.sin (dphi / 2)) ^ 2 +
    Real.cos phi1 * Real.cos phi2 * (Real.sin (dlambda / 2)) ^ 2
  2 * R * atan2 (Real.sqrt a) (Real.sqrt (1 - a))

lemma atan2_nonneg {y x : ℝ} (hy : 0 ≤ y) (hx : 0 ≤ x) : 0 ≤ atan2 y x := by
  unfold atan2
  have hnx : ¬ x < 0 := not_lt.mpr hx
  rcases lt_or_le 0 x with hx1 | hx2
  · rw [if_pos hx1]
    have h0 : Real.arctan 0 ≤ Real.arctan (y / x) :=
      Real.arctan_strictMono.monotone (div_nonneg hy hx1.le)
    simpa [Real.arctan_zero] using h0
  · have hx0 : ¬ 0 < x := not_lt.mpr hx2
    rw [if_neg hx0, if_neg hnx]
    rcases lt_or_le 0 y with hy1 | hy2
    · rw [if_pos hy1]
      positivity
    · have hy0 : ¬ 0 < y := not_lt.mpr hy2
      have hyn : ¬ y < 0 := not_lt.mpr hy
      rw [if_neg hy0, if_neg hyn]

lemma distance_km_symm (lat1 lon1 lat2 lon2 : ℝ) :
    distance_km lat1 lon1 lat2 lon2 = distance_km lat2 lon2 lat1 lon1 := by
  have h1 : radians (lat1 - lat2) / 2 = -(radians (lat2 - lat1) / 2) := by
    unfold radians; ring
  have h2 : radians (lon1 - lon2) / 2 = -(radians (lon2 - lon1) / 2) := by
    unfold radians; ring
  have key : (Real.sin (radians (lat1 - lat2) / 2)) ^ 2 +
      Real.cos (radians lat2) * Real.cos (radians lat1) *
        (Real.sin (radians (lon1 - lon2) / 2)) ^ 2
      = (Real.sin (radians (lat2 - lat1) / 2)) ^ 2 +
        Real.cos (radians lat1) * Real.cos (radians lat2) *
          (Real.sin (radians (lon2 - lon1) / 2)) ^ 2 := by
    rw [h1, h2, Real.sin_neg, Real.sin_neg, neg_sq, neg_sq]
    ring
  simp only [distance_km]
  rw [key]

lemma distance_km_self (lat lon : ℝ) : distance_km lat lon lat lon = 0 := by
  simp only [distance_km]
  have h0 : radians (lat - lat) = 0 := by unfold radians; ring
  have h0l : radians (lon - lon) = 0 := by unfold radians; ring
  rw [h0, h0l]
  norm_num [atan2, Real.sin_zero, Real.sqrt_zero, Real.sqrt_one, Real.arctan_zero]

lemma distance_km_nonneg (lat1 lon1 lat2 lon2 : ℝ) :
    0 ≤ distance_km lat1 lon1 lat2 lon2 := by
  simp only [distance_km]
  exact mul_nonneg (by norm_num) (atan2_nonneg (Real.sqrt_nonneg _) (Real.sqrt_nonneg _))

/-- C5: `distance_km` is symmetric in its two points, is zero from a point to
itself, and is always non-negative. -/
theorem c5_distance_properties (lat1 lon1 lat2 lon2 : ℝ) :
    distance_km lat1 lon1 lat2 lon2 = distance_km lat2 lon2 lat1 lon1 ∧
    distance_km lat1 lon1 lat1 lon1 = 0 ∧
    0 ≤ distance_km lat1 lon1 lat2 lon2 :=
  ⟨distance_km_symm lat1 lon1 lat2 lon2, distance_km_self lat1 lon1,
   distance_km_nonneg lat1 lon1 lat2 lon2⟩

/-- The designated priority point of `q_sen.py`. -/
def PRIORITY_CITY : String := "Tacloban"

/-- The fixed city table of `q_sen.py` (name, latitude, longitude), in its
insertion order, which is the iteration order of a Python dict. -/
def CITIES : List (String × ℝ × ℝ) :=
  [("Manila", 14.6, 121.0), ("Baguio", 16.4, 120.6), ("Cebu", 10.3, 123.9),
   ("Davao", 7.1, 125.6), ("Iloilo", 10.7, 122.6), ("Legazpi", 13.1, 123.7),
   ("Tacloban", 11.2, 125.0), ("Samar", 12.0, 125.0)]

/-- One step of the impact loop in `build_alert_message`: a city contributes an
entry when it is the priority city or lies within 400 km of the epicenter. -/
noncomputable def cityEntry (lat lon mag : ℝ) (c : String × ℝ × ℝ) :
    Option (String × ℝ × String) :=
  let dist := distance_km lat lon c.2.1 c.2.2
  let intensity := estimate_intensity mag dist
  if c.1 = PRIORITY_CITY ∨ dist ≤ 400 then some (c.1, dist, intensity) else none

/-- The `impact_data` list accumulated by `build_alert_message`'s city loop. -/
noncomputable def impactData (lat lon mag : ℝ) : List (String × ℝ × String) :=
  CITIES.filterMap (cityEntry lat lon mag)

/-- The fallback of `build_alert_message`: if no city was included, the
priority city alone is added, at its distance from the epicenter. -/
noncomputable def impactDataWithFallback (lat lon mag : ℝ) :
    List (String × ℝ × String) :=
  if impactData lat lon mag = [] then
    let c := (List.lookup PRIORITY_CITY CITIES).getD (0, 0)
    let d := distance_km lat lon c.1 c.2
    [(PRIORITY_CITY, d, estimate_intensity mag d)]
  else impactData lat lon mag

/-- The comparison `impact_data.sort(key=lambda x: x[1])` sorts by. -/
noncomputable def impactLEb (a b : String × ℝ × String) : Bool :=
  decide (a.2.1 ≤ b.2.1)

/-- The sorted impact list of `build_alert_message`; Python's `list.sort` is a
stable sort, embedded here as `List.mergeSort`. -/
noncomputable def impactSorted (lat lon mag : ℝ) : List (String × ℝ × String) :=
  (impactDataWithFallback lat lon mag).mergeSort impactLEb

/-- `impact_data[0]`, reported as the "epicenter zone". -/
noncomputable def epicenterZone (lat lon mag : ℝ) : Option (String × ℝ × String) :=
  (impactSorted lat lon mag).head?

lemma impactLEb_trans : ∀ a b c, impactLEb a b → impactLEb b c → impactLEb a c := by
  intro a b c hab hbc
  simp only [impactLEb, decide_eq_true_eq] at *
  exact le_trans hab hbc

lemma impactLEb_total : ∀ a b, impactLEb a b || impactLEb b a := by
  intro a b
  simp only [impactLEb, Bool.or_eq_true, decide_eq_true_eq]
  exact le_total _ _

lemma tacloban_entry (lat lon mag : ℝ) :
    cityEntry lat lon mag ("Tacloban", 11.2, 125.0) =
      some ("Tacloban", distance_km lat lon 11.2 125.0,
        estimate_intensity mag (distance_km lat lon 11.2 125.0)) := by
  unfold cityEntry PRIORITY_CITY
  rw [if_pos (Or.inl rfl)]

lemma tacloban_mem_impactData (lat lon mag : ℝ) :
    ("Tacloban", distance_km lat lon 11.2 125.0,
      estimate_intensity mag (distance_km lat lon 11.2 125.0)) ∈ impactData lat lon mag := by
  unfold impactData
  refine List.mem_filterMap.mpr ⟨("Tacloban", 11.2, 125.0), ?_, tacloban_entry lat lon mag⟩
  unfold CITIES
  simp

lemma impactData_ne_nil (lat lon mag : ℝ) : impactData lat lon mag ≠ [] :=
  List.ne_nil_of_mem (tacloban_mem_impactData lat lon mag)

lemma fallback_eq (lat lon mag : ℝ) :
    impactDataWithFallback lat lon mag = impactData lat lon mag := by
  unfold impactDataWithFallback
  rw [if_neg (impactData_ne_nil lat lon mag)]

lemma tacloban_mem_impactSorted (lat lon mag : ℝ) :
    ("Tacloban", distance_km lat lon 11.2 125.0,
      estimate_intensity mag (distance_km lat lon 11.2 125.0)) ∈ impactSorted lat lon mag := by
  unfold impactSorted
  rw [List.mem_mergeSort, fallback_eq]
  exact tacloban_mem_impactData lat lon mag

lemma impactSorted_pairwise (lat lon mag : ℝ) :
    List.Pairwise (fun a b => a.2.1 ≤ b.2.1) (impactSorted lat lon mag) := by
  have h := List.sorted_mergeSort impactLEb_trans impactLEb_total
    (impactDataWithFallback lat lon mag)
  exact h.imp (fun hab => by simpa [impactLEb, decide_eq_true_eq] using hab)

/-- C2: the sorted impact list always contains the priority city Tacloban, it
is never empty, and the city loop's own output is already non-empty, so the
empty-set fallback branch is unreachable with the fixed city table. -/
theorem c2_priority_always_included (lat lon mag : ℝ) :
    (∃ d i, (PRIORITY_CITY, d, i) ∈ impactSorted lat lon mag) ∧
    impactSorted lat lon mag ≠ [] ∧
    impactData lat lon mag ≠ [] :=
  ⟨⟨distance_km lat lon 11.2 125.0,
    estimate_intensity mag (distance_km lat lon 11.2 125.0),
    tacloban_mem_impactSorted lat lon mag⟩,
   List.ne_nil_of_mem (tacloban_mem_impactSorted lat lon mag),
   impactData_ne_nil lat lon mag⟩

/-- C3: the impact list is sorted ascending by distance, is a permutation of
the included entries, is a stable sort of them (any subsequence already in
distance order survives as a subsequence, so ties keep the original table
order), and its first entry — the epicenter zone — has minimum distance. -/
theorem c3_sorted_by_distance (lat lon mag : ℝ) :
    List.Pairwise (fun a b => a.2.1 ≤ b.2.1) (impactSorted lat lon mag) ∧
    (impactSorted lat lon mag).Perm (impactData lat lon mag) ∧
    (∀ c : List (String × ℝ × String), c.Pairwise (fun a b => a.2.1 ≤ b.2.1) →
      c.Sublist (impactData lat lon mag) → c.Sublist (impactSorted lat lon mag)) ∧
    (∃ hd tl, impactSorted lat lon mag = hd :: tl ∧
      epicenterZone lat lon mag = some hd ∧
      ∀ x ∈ impactSorted lat lon mag, hd.2.1 ≤ x.2.1) := by
  refine ⟨impactSorted_pairwise lat lon mag, ?_, ?_, ?_⟩
  · unfold impactSorted
    rw [fallback_eq]
    exact List.mergeSort_perm (impactData lat lon mag) impactLEb
  · intro c hc hsub
    unfold impactSorted
    refine List.sublist_mergeSort impactLEb_trans impactLEb_total ?_ ?_
    · exact hc.imp (fun hab => by simpa [impactLEb, decide_eq_true_eq] using hab)
    · rw [fallback_eq]
      exact hsub
  · rcases h : impactSorted lat lon mag with _ | ⟨hd, tl⟩
    · exact absurd h (List.ne_nil_of_mem (tacloban_mem_impactSorted lat lon mag))
    · refine ⟨hd, tl, rfl, ?_, ?_⟩
      · unfold epicenterZone
        rw [h]
        rfl
      · intro x hx
        have hp := impactSorted_pairwise lat lon mag
        rw [h] at hp
        rcases List.mem_cons.mp hx with rfl | hx2
        · exact le_rfl
        · exact (List.pairwise_cons.mp hp).1 x hx2

/-- An event record as the monitor loop reads it from the feed JSON:
`id` is `quake.get("id")` (`none` when absent); `mag` is the raw
`properties["mag"]` slot (`none` = key absent, `some none` = JSON null);
`lon`/`lat` are `coordinates[0]`/`coordinates[1]`. -/
structure Event where
  id : Option String
  mag : Option (Option ℚ)
  lon : ℚ
  lat : ℚ

/-- `props.get("mag", 0)`: the stored value when the key is present (possibly
null), and the default 0 when the key is absent. -/
def eventMag (q : Event) : Option ℚ := q.mag.getD (some 0)

/-- Embeds `is_in_sea_region(lat, lon)` from `q_sen.py`. -/
def is_in_sea_region (lat lon : ℚ) : Bool :=
  decide ((4.5 ≤ lat ∧ lat ≤ 21.5) ∧ (116.0 ≤ lon ∧ lon ≤ 127.5))

/-- The bounding box the module docstring advertises:
"SEA bounding box: lat -15..25, lon 90..145". -/
def docstring_region (lat lon : ℚ) : Bool :=
  decide ((-15 ≤ lat ∧ lat ≤ 25) ∧ (90 ≤ lon ∧ lon ≤ 145))

/-- One feature of the monitor loop body: skip when the magnitude is null or
below `MIN_MAGNITUDE`, skip when outside the region, skip when the id is falsy
(absent or empty) or already seen; otherwise send the alert and add the id to
the seen-set.  The second component is the id alerted on, if any. -/
def processEvent (minMag : ℚ) (seen : Finset String) (q : Event) :
    Finset String × Option String :=
  match eventMag q with
  | none => (seen, none)
  | some m =>
    if m < minMag then (seen, none)
    else if !(is_in_sea_region q.lat q.lon) then (seen, none)
    else match q.id with
      | none => (seen, none)
      | some qid =>
        if qid = "" ∨ qid ∈ seen then (seen, none)
        else (insert qid seen, some qid)

/-- One poll of the monitor loop: process the features in order, threading the
seen-set and accumulating the ids alerted on. -/
def processPoll (minMag : ℚ) (st : Finset String × List String) (evs : List Event) :
    Finset String × List String :=
  evs.foldl (fun s q =>
    let r := processEvent minMag s.1 q
    (r.1, s.2 ++ r.2.toList)) st

/-- A run of the monitor loop over successive polls. -/
def runPolls (minMag : ℚ) (st : Finset String × List String) (polls : List (List Event)) :
    Finset String × List String :=
  polls.foldl (processPoll minMag) st

/-- The impact list `build_alert_message` computes for an event, using
`props.get("mag", 0)` as the magnitude (`none` when the magnitude is null, in
which case the source would fail before producing a list). -/
noncomputable def buildAlertImpact (q : Event) : Option (List (String × ℝ × String)) :=
  (eventMag q).map fun m => impactSorted (q.lat : ℝ) (q.lon : ℝ) (m : ℝ)

lemma processEvent_cases (minMag : ℚ) (seen : Finset String) (q : Event) :
    processEvent minMag seen q = (seen, none) ∨
    (∃ qid, q.id = some qid ∧ qid ∉ seen ∧
      processEvent minMag seen q = (insert qid seen, some qid)) := by
  unfold processEvent
  rcases eventMag q with _ | m
  · exact Or.inl rfl
  · simp only []
    split_ifs with h1 h2
    · exact Or.inl rfl
    · exact Or.inl rfl
    · rcases hid : q.id with _ | qid
      · exact Or.inl rfl
      · simp only []
        split_ifs with h3
        · exact Or.inl rfl
        · push_neg at h3
          exact Or.inr ⟨qid, rfl, h3.2, rfl⟩

lemma processPoll_inv (minMag : ℚ) (evs : List Event) :
    ∀ st : Finset String × List String, st.2.Nodup → (∀ a ∈ st.2, a ∈ st.1) →
    (processPoll minMag st evs).2.Nodup ∧
    (∀ a ∈ (processPoll minMag st evs).2, a ∈ (processPoll minMag st evs).1) ∧
    st.1 ⊆ (processPoll minMag st evs).1 := by
  induction evs with
  | nil => intro st h1 h2; exact ⟨h1, h2, fun a ha => ha⟩
  | cons q evs ih =>
    intro st h1 h2
    have step : processPoll minMag st (q :: evs) =
        processPoll minMag ((processEvent minMag st.1 q).1,
          st.2 ++ (processEvent minMag st.1 q).2.toList) evs := rfl
    rcases processEvent_cases minMag st.1 q with hA | ⟨qid, hqid, hnot, hB⟩
    · rw [step, hA]
      simp only [Option.toList_none, List.append_nil]
      exact ih (st.1, st.2) h1 h2
    · rw [step, hB]
      simp only [Option.toList_some]
      have hnd : (st.2 ++ [qid]).Nodup := by
        rw [List.nodup_append]
        refine ⟨h1, List.nodup_singleton qid, ?_⟩
        intro a ha hb
        rcases List.mem_singleton.mp hb with rfl
        exact hnot (h2 a ha)
      have hmem : ∀ a ∈ st.2 ++ [qid], a ∈ insert qid st.1 := by
        intro a ha
        rcases List.mem_append.mp ha with ha2 | ha2
        · exact Finset.mem_insert_of_mem (h2 a ha2)
        · rcases List.mem_singleton.mp ha2 with rfl
          exact Finset.mem_insert_self a st.1
      have ihr := ih (insert qid st.1, st.2 ++ [qid]) hnd hmem
      exact ⟨ihr.1, ihr.2.1, fun a ha =>
        ihr.2.2 (Finset.mem_insert_of_mem ha)⟩

lemma runPolls_inv (minMag : ℚ) (polls : List (List Event)) :
    ∀ st : Finset String × List String, st.2.Nodup → (∀ a ∈ st.2, a ∈ st.1) →
    (runPolls minMag st polls).2.Nodup ∧
    (∀ a ∈ (runPolls minMag st polls).2, a ∈ (runPolls minMag st polls).1) ∧
    st.1 ⊆ (runPolls minMag st polls).1 := by
  induction polls with
  | nil => intro st h1 h2; exact ⟨h1, h2, fun a ha => ha⟩
  | cons evs polls ih =>
    intro st h1 h2
    have step : runPolls minMag st (evs :: polls) =
        runPolls minMag (processPoll minMag st evs) polls := rfl
    rw [step]
    have hp := processPoll_inv minMag evs st h1 h2
    have ihr := ih (processPoll minMag st evs) hp.1 hp.2.1
    exact ⟨ihr.1, ihr.2.1, fun a ha => ihr.2.2 (hp.2.2 ha)⟩

/-- C6: within one run of the monitor loop each event id triggers at most one
alert: the alerted ids are distinct, an alert fires only when the id is not in
the seen-set, the id is inserted immediately after, and the seen-set only
grows. -/
theorem c6_dedup_once (minMag : ℚ) (polls : List (List Event)) (seen0 : Finset String) :
    (runPolls minMag (seen0, []) polls).2.Nodup ∧
    seen0 ⊆ (runPolls minMag (seen0, []) polls).1 ∧
    (∀ seen q qid, (processEvent minMag seen q).2 = some qid →
      qid ∉ seen ∧ (processEvent minMag seen q).1 = insert qid seen) ∧
    (∀ (seen : Finset String) (q : Event), seen ⊆ (processEvent minMag seen q).1) := by
  have h := runPolls_inv minMag polls (seen0, []) List.nodup_nil (by intro a ha; cases ha)
  refine ⟨h.1, h.2.2, ?_, ?_⟩
  · intro seen q qid hq
    rcases processEvent_cases minMag seen q with hA | ⟨qid2, _, hnot, hB⟩
    · rw [hA] at hq; cases hq
    · rw [hB] at hq
      have heq : qid2 = qid := Option.some.inj hq
      subst heq
      rw [hB]
      exact ⟨hnot, rfl⟩
  · intro seen q
    rcases processEvent_cases minMag seen q with hA | ⟨qid2, _, _, hB⟩
    · rw [hA]
    · rw [hB]
      exact fun a ha => Finset.mem_insert_of_mem ha

/-- Seconds-since-epoch shifted to UTC+8, as `now_utc + timedelta(hours=8)`. -/
def phTime (t : ℕ) : ℕ := t + 8 * 3600

/-- The UTC+8 hour of the day, `now_ph.hour`. -/
def phHour (t : ℕ) : ℕ := phTime t / 3600 % 24

/-- The UTC+8 calendar day (days since epoch), standing for `now_ph.date()`. -/
def phDate (t : ℕ) : ℕ := phTime t / 86400

/-- The daily-report gate at the end of one loop iteration: fire when the UTC+8
hour is 8 and `last_daily_date` differs from today's UTC+8 date, then record
that date. -/
def dailyStep (last : Option ℕ) (t : ℕ) : Option ℕ × Bool :=
  if phHour t = 8 ∧ last ≠ some (phDate t) then (some (phDate t), true)
  else (last, false)

/-- The gate run over the successive check times of a loop run, collecting the
times at which a daily report was sent. -/
def dailyRun (last : Option ℕ) : List ℕ → Option ℕ × List ℕ
  | [] => (last, [])
  | t :: ts =>
    let s := dailyStep last t
    let r := dailyRun s.1 ts
    (r.1, (if s.2 then [t] else []) ++ r.2)

lemma phDate_mono {t u : ℕ} (h : t ≤ u) : phDate t ≤ phDate u :=
  Nat.div_le_div_right (Nat.add_le_add_right h _)

lemma dailyRun_spec (ts : List ℕ) : ∀ last : Option ℕ,
    ts.Pairwise (· ≤ ·) →
    (∀ d, last = some d → ∀ t ∈ ts, d ≤ phDate t) →
    (∀ t ∈ (dailyRun last ts).2, phHour t = 8) ∧
    (dailyRun last ts).2.Pairwise (fun a b => phDate a < phDate b) ∧
    (∀ d, last = some d → ∀ u ∈ (dailyRun last ts).2, d < phDate u) ∧
    (∀ t ∈ ts, phHour t = 8 →
      last = some (phDate t) ∨ ∃ u ∈ (dailyRun last ts).2, phDate u = phDate t) := by
  induction ts with
  | nil =>
    intro last _ _
    refine ⟨?_, ?_, ?_, ?_⟩
    · intro t ht; cases ht
    · exact List.Pairwise.nil
    · intro d _ u hu; cases hu
    · intro t ht; cases ht
  | cons t ts ih =>
    intro last hsort hlast
    have hts : ∀ x ∈ ts, t ≤ x := (List.pairwise_cons.mp hsort).1
    have hsort2 : ts.Pairwise (· ≤ ·) := (List.pairwise_cons.mp hsort).2
    by_cases hc : phHour t = 8 ∧ last ≠ some (phDate t)
    · have hrun : dailyRun last (t :: ts) =
          ((dailyRun (some (phDate t)) ts).1,
           t :: (dailyRun (some (phDate t)) ts).2) := by
        simp only [dailyRun, dailyStep, if_pos hc]
        rfl
      have hlast2 : ∀ d, some (phDate t) = some d → ∀ x ∈ ts, d ≤ phDate x := by
        intro d hd x hx
        have hd2 : phDate t = d := Option.some.inj hd
        exact hd2 ▸ phDate_mono (hts x hx)
      have IH := ih (some (phDate t)) hsort2 hlast2
      rw [hrun]
      refine ⟨?_, ?_, ?_, ?_⟩
      · intro u hu
        rcases List.mem_cons.mp hu with rfl | hu2
        · exact hc.1
        · exact IH.1 u hu2
      · refine List.pairwise_cons.mpr ⟨?_, IH.2.1⟩
        intro u hu
        exact IH.2.2.1 (phDate t) rfl u hu
      · intro d hd u hu
        have hle : d ≤ phDate t := hlast d hd t (List.mem_cons_self t ts)
        have hne : d ≠ phDate t := by
          intro he
          exact hc.2 (he ▸ hd)
        have hlt : d < phDate t := lt_of_le_of_ne hle hne
        rcases List.mem_cons.mp hu with rfl | hu2
        · exact hlt
        · exact lt_trans hlt (IH.2.2.1 (phDate t) rfl u hu2)
      · intro x hx hhx
        rcases List.mem_cons.mp hx with rfl | hx2
        · exact Or.inr ⟨x, List.mem_cons_self x _, rfl⟩
        · rcases IH.2.2.2 x hx2 hhx with heq | ⟨u, hu, hud⟩
          · have hde : phDate t = phDate x := Option.some.inj heq
            exact Or.inr ⟨t, List.mem_cons_self t _, hde⟩
          · exact Or.inr ⟨u, List.mem_cons_of_mem t hu, hud⟩
    · have hrun : dailyRun last (t :: ts) =
          ((dailyRun last ts).1, (dailyRun last ts).2) := by
        simp only [dailyRun, dailyStep, if_neg hc]
        rfl
      have hlast2 : ∀ d, last = some d → ∀ x ∈ ts, d ≤ phDate x := by
        intro d hd x hx
        exact hlast d hd x (List.mem_cons_of_mem t hx)
      have IH := ih last hsort2 hlast2
      rw [hrun]
      refine ⟨IH.1, IH.2.1, IH.2.2.1, ?_⟩
      intro x hx hhx
      rcases List.mem_cons.mp hx with rfl | hx2
      · left
        by_contra hne
        exact hc ⟨hhx, hne⟩
      · exact IH.2.2.2 x hx2 hhx

/-- C7: over a run of the loop with non-decreasing check times and no report
sent yet, every daily report fires at UTC+8 hour 8, the fired dates are
strictly increasing (so at most one report per UTC+8 calendar day), and every
check that lands in hour 8 of some day gets a report for that day — the gate
is keyed on the UTC+8 date held in the loop-local state. -/
theorem c7_daily_gate (ts : List ℕ) (h : ts.Pairwise (· ≤ ·)) :
    (∀ t ∈ (dailyRun none ts).2, phHour t = 8) ∧
    (dailyRun none ts).2.Pairwise (fun a b => phDate a < phDate b) ∧
    (∀ t ∈ ts, phHour t = 8 → ∃ u ∈ (dailyRun none ts).2, phDate u = phDate t) := by
  have hs := dailyRun_spec ts none h (fun d hd => Option.noConfusion hd)
  refine ⟨hs.1, hs.2.1, ?_⟩
  intro t ht hht
  rcases hs.2.2.2 t ht hht with heq | hex
  · cases heq
  · exact hex

/-- Witness for C7 on the two check times 0 s (08:00 UTC+8) and 86400 s. -/
theorem c7_daily_gate_witness :
    ([0, 86400].Pairwise (· ≤ ·)) ∧
    ((∀ t ∈ (dailyRun none [0, 86400]).2, phHour t = 8) ∧
     (dailyRun none [0, 86400]).2.Pairwise (fun a b => phDate a < phDate b) ∧
     (∀ t ∈ [0, 86400], phHour t = 8 →
       ∃ u ∈ (dailyRun none [0, 86400]).2, phDate u = phDate t)) :=
  ⟨by decide, c7_daily_gate [0, 86400] (by decide)⟩

/-- Embeds `load_seen` from `q_sen.py`: the `Except` input stands for the
outcome of opening and JSON-parsing `SEEN_FILE`; any failure is caught and
degrades to the empty set. -/
def load_seen (raw : Except String (List String)) : Finset String :=
  match raw with
  | Except.ok ids => ids.toFinset
  | Except.error _ => ∅

/-- Embeds `save_seen` from `q_sen.py`: the `Except` input stands for the
outcome of writing `SEEN_FILE`; a failure is absorbed and only surfaces as the
warning text returned here, never as an exception. -/
def save_seen (w : Except String Unit) : Option String :=
  match w with
  | Except.ok _ => none
  | Except.error e => some e

/-- C8: a read failure of the dedup store yields the empty seen-set (every id
degrades to "not seen") instead of raising, and a write failure is absorbed,
surfacing only as a warning value, so neither failure crashes the loop. -/
theorem c8_persistence_degrades (e : String) (ids : List String) :
    load_seen (Except.error e) = ∅ ∧
    (∀ qid : String, qid ∉ load_seen (Except.error e)) ∧
    load_seen (Except.ok ids) = ids.toFinset ∧
    save_seen (Except.error e) = some e ∧
    save_seen (Except.ok ()) = none :=
  ⟨rfl, fun qid h => by simp [load_seen] at h, rfl, rfl, rfl⟩

/-- C9: an event whose magnitude key is absent is treated as magnitude 0: the
read magnitude is 0, alert formatting builds the impact list with magnitude 0,
and the monitor loop's threshold comparison behaves exactly as for an explicit
magnitude 0. -/
theorem c9_absent_magnitude_zero (q : Event) (minMag : ℚ) (seen : Finset String)
    (h : q.mag = none) :
    eventMag q = some 0 ∧
    buildAlertImpact q = some (impactSorted (q.lat : ℝ) (q.lon : ℝ) 0) ∧
    processEvent minMag seen q =
      processEvent minMag seen { q with mag := some (some 0) } := by
  have hm : eventMag q = some 0 := by
    simp [eventMag, h]
  refine ⟨hm, ?_, ?_⟩
  · simp [buildAlertImpact, hm]
  · have hm2 : eventMag { q with mag := some (some 0) } = some 0 := rfl
    unfold processEvent
    rw [hm, hm2]

/-- Witness for C9 on an event with no magnitude key. -/
theorem c9_absent_magnitude_zero_witness :
    (Event.mk none none 0 0).mag = none ∧
    (eventMag (Event.mk none none 0 0) = some 0 ∧
     buildAlertImpact (Event.mk none none 0 0) =
       some (impactSorted ((Event.mk none none 0 0).lat : ℝ)
         ((Event.mk none none 0 0).lon : ℝ) 0) ∧
     processEvent 1 ∅ (Event.mk none none 0 0) =
       processEvent 1 ∅ { Event.mk none none 0 0 with mag := some (some 0) }) :=
  ⟨rfl, c9_absent_magnitude_zero (Event.mk none none 0 0) 1 ∅ rfl⟩

lemma pe_skip_nullmag (minMag : ℚ) (seen : Finset String) (q : Event)
    (hm : eventMag q = none) : processEvent minMag seen q = (seen, none) := by
  unfold processEvent
  rw [hm]

lemma pe_skip_low (minMag : ℚ) (seen : Finset String) (q : Event) (m : ℚ)
    (hm : eventMag q = some m) (hlt : m < minMag) :
    processEvent minMag seen q = (seen, none) := by
  unfold processEvent
  rw [hm]
  simp only [if_pos hlt]

lemma pe_skip_region (minMag : ℚ) (seen : Finset String) (q : Event)
    (hreg : is_in_sea_region q.lat q.lon = false) :
    processEvent minMag seen q = (seen, none) := by
  unfold processEvent
  rcases hm : eventMag q with _ | m
  · rfl
  · simp only [hreg, Bool.not_false, if_true]
    split_ifs <;> rfl

/-- C10: an alert fires only for events with magnitude at least the threshold
whose epicenter lies inside the fixed box 4.5 ≤ lat ≤ 21.5, 116 ≤ lon ≤ 127.5;
that box is strictly narrower than the module docstring's lat −15..25,
lon 90..145 box; and every event outside the box or below the threshold is
skipped with no alert and no state change. -/
theorem c10_region_threshold_filter (minMag : ℚ) (seen : Finset String) (q : Event)
    (h : (processEvent minMag seen q).2 ≠ none) :
    (∃ m, eventMag q = some m ∧ minMag ≤ m) ∧
    is_in_sea_region q.lat q.lon = true ∧
    (∀ la lo : ℚ, is_in_sea_region la lo = true → docstring_region la lo = true) ∧
    (∃ la lo : ℚ, docstring_region la lo = true ∧ is_in_sea_region la lo = false) ∧
    (∀ q2 : Event, is_in_sea_region q2.lat q2.lon = false →
      processEvent minMag seen q2 = (seen, none)) ∧
    (∀ (q2 : Event) (m : ℚ), eventMag q2 = some m → m < minMag →
      processEvent minMag seen q2 = (seen, none)) := by
  refine ⟨?_, ?_, ?_, ?_, ?_, ?_⟩
  · rcases hm : eventMag q with _ | m
    · exact absurd (congrArg Prod.snd (pe_skip_nullmag minMag seen q hm)) h
    · refine ⟨m, rfl, ?_⟩
      by_contra hlt
      push_neg at hlt
      exact absurd (congrArg Prod.snd (pe_skip_low minMag seen q m hm hlt)) h
  · by_contra hreg
    have hreg2 : is_in_sea_region q.lat q.lon = false :=
      Bool.eq_false_iff.mpr (fun hx => hreg hx)
    exact absurd (congrArg Prod.snd (pe_skip_region minMag seen q hreg2)) h
  · intro la lo hla
    simp only [is_in_sea_region, decide_eq_true_eq] at hla
    simp only [docstring_region, decide_eq_true_eq]
    obtain ⟨⟨a1, a2⟩, b1, b2⟩ := hla
    refine ⟨⟨by linarith, by linarith⟩, by linarith, by linarith⟩
  · refine ⟨0, 100, by norm_num [docstring_region], by norm_num [is_in_sea_region]⟩
  · intro q2 hreg
    exact pe_skip_region minMag seen q2 hreg
  · intro q2 m hm hlt
    exact pe_skip_low minMag seen q2 m hm hlt

/-- Witness for C10 on a magnitude-5 event at Manila's coordinates. -/
theorem c10_region_threshold_filter_witness :
    (processEvent 1 ∅ (Event.mk (some "x") (some (some 5)) 121 14.6)).2 ≠ none ∧
    ((∃ m, eventMag (Event.mk (some "x") (some (some 5)) 121 14.6) = some m ∧ 1 ≤ m) ∧
     is_in_sea_region (Event.mk (some "x") (some (some 5)) 121 14.6).lat
       (Event.mk (some "x") (some (some 5)) 121 14.6).lon = true ∧
     (∀ la lo : ℚ, is_in_sea_region la lo = true → docstring_region la lo = true) ∧
     (∃ la lo : ℚ, docstring_region la lo = true ∧ is_in_sea_region la lo = false) ∧
     (∀ q2 : Event, is_in_sea_region q2.lat q2.lon = false →
       processEvent 1 ∅ q2 = (∅, none)) ∧
     (∀ (q2 : Event) (m : ℚ), eventMag q2 = some m → m < 1 →
       processEvent 1 ∅ q2 = (∅, none))) := by
  refine ⟨?_, c10_region_threshold_filter 1 ∅ (Event.mk (some "x") (some (some 5)) 121 14.6) ?_⟩ <;>
    (norm_num [processEvent, eventMag, is_in_sea_region]; simp)

end QuakeSentinel
